import Mathlib

/-!
Verification of the Jira adapter (`src/core/adapters/jira.ts`).

The adapter inspects a page URL and DOM document, decides whether the page
belongs to a Jira instance, extracts the selected issue identifier from the
URL, fetches the issue record from the REST API, and maps it to the canonical
`TicketData` shape.

Embedding conventions:
* JS strings are embedded as Lean `String` (a list of characters); the JS
  string operations used by the adapter (`substr`, `startsWith`, `endsWith`,
  `toLowerCase`, regex replace) are given explicit definitions over `data`.
* The `URL` and `Document` browser objects are embedded structurally: the
  adapter only reads `url.host`, `url.pathname`, `url.searchParams` and
  `document.body.id`, so `Url` carries those fields (plus the scheme, which
  the page URL has even though the adapter never reads it).
* JS `undefined` and `null` are both embedded as `none`; a JS string that may
  be absent is an `Option String`.  JS truthiness on such a value (`!id`,
  `find(Boolean)`) treats `none` and `some ""` as falsy.
* The network is embedded by making `scan` return the list of GET request
  URLs it issues alongside its result, with the remote answer supplied by an
  oracle `api : String → JiraTicketInfo`.
* The document-conversion library (`fromADF`/`toMarkdown`) is an external
  collaborator and is embedded as an abstract function
  `convert : StructuredDocument → String`.
-/

namespace Jira

/-- Page URL, embedded structurally: the fields of the browser `URL` object
that the adapter reads, plus the scheme.  `searchParams` is the decoded list
of query key/value pairs in order. -/
structure Url where
  scheme : String
  host : String
  pathname : String
  searchParams : List (String × String)
deriving DecidableEq

/-- DOM document, embedded structurally: the adapter only reads
`document.body.id`. -/
structure Document where
  bodyId : String
deriving DecidableEq

/-- Embedding of JS `String.prototype.endsWith`. -/
def jsEndsWith (s suffix : String) : Bool :=
  suffix.data.isSuffixOf s.data

/-- Embedding of JS `String.prototype.startsWith`. -/
def jsStartsWith (s pre : String) : Bool :=
  pre.data.isPrefixOf s.data

/-- Embedding of JS `String.prototype.substr(n)`: drop the first `n`
characters. -/
def jsSubstrFrom (s : String) (n : Nat) : String :=
  ⟨s.data.drop n⟩

/-- Embedding of JS `String.prototype.toLowerCase`. -/
def jsToLower (s : String) : String :=
  ⟨s.data.map Char.toLower⟩

/-- `isJiraPage(url, document)`: the applicability test (jira.ts lines
32–36). -/
def isJiraPage (url : Url) (document : Document) : Bool :=
  if jsEndsWith url.host ".atlassian.net" then true
  else if document.bodyId == "jira" then true
  else false

/-- Embedding of `URLSearchParams.has(k)`. -/
def hasParam (ps : List (String × String)) (k : String) : Bool :=
  ps.any (fun p => p.1 == k)

/-- Embedding of `URLSearchParams.get(k)`: the value of the first pair with
key `k` (JS returns `null`, here `none`, when the key is absent). -/
def getParam (ps : List (String × String)) (k : String) : Option String :=
  (ps.find? (fun p => p.1 == k)).map (fun p => p.2)

/-! ### The `pathSuffixes` regular expression

jira.ts line 38 compiles
`/(jira\/software\/([^\/]\/)?)?(browse\/[^\/]+|projects\/[^\/]+\/issues\/[^\/]+|projects\/[^\/]+\/boards\/.*|secure\/RapidBoard.jspa)$/g`
(the dot in `RapidBoard.jspa` is unescaped, so it matches any non-line-
terminator character).  `getPathPrefix` replaces every match with the empty
string; since each match is anchored at the end of the string, at most one
match exists, namely the one starting at the least position whose suffix
belongs to the pattern's language.  The definitions below decide membership
of that language. -/

/-- Drop a literal character sequence from the front of a list, if present. -/
def dropLit : List Char → List Char → Option (List Char)
  | [], cs => some cs
  | _ :: _, [] => none
  | l :: ls, c :: cs => if c = l then dropLit ls cs else none

/-- JS regex `.` (without the `s` flag) matches any character except a line
terminator (LF, CR, LS, PS). -/
def isLineTerm (c : Char) : Bool :=
  c = '\n' || c = '\r' || c = ' ' || c = ' '

/-- The language of `[^/]+$`: one or more non-slash characters. -/
def isSeg (cs : List Char) : Bool :=
  !cs.isEmpty && cs.all (fun c => c ≠ '/')

/-- Alternative `browse\/[^\/]+` (anchored at end). -/
def matchBrowse (cs : List Char) : Bool :=
  match dropLit "browse/".data cs with
  | some r => isSeg r
  | none => false

/-- Alternative `projects\/[^\/]+\/issues\/[^\/]+` (anchored at end).  The
first `[^/]+` cannot cross a slash and is followed by a literal slash, so it
necessarily matches the maximal run of non-slash characters. -/
def matchProjIssues (cs : List Char) : Bool :=
  match dropLit "projects/".data cs with
  | some r =>
    !(r.takeWhile (fun c => c ≠ '/')).isEmpty &&
      (match dropLit "/issues/".data (r.dropWhile (fun c => c ≠ '/')) with
       | some r2 => isSeg r2
       | none => false)
  | none => false

/-- Alternative `projects\/[^\/]+\/boards\/.*` (anchored at end). -/
def matchProjBoards (cs : List Char) : Bool :=
  match dropLit "projects/".data cs with
  | some r =>
    !(r.takeWhile (fun c => c ≠ '/')).isEmpty &&
      (match dropLit "/boards/".data (r.dropWhile (fun c => c ≠ '/')) with
       | some r3 => r3.all (fun c => !isLineTerm c)
       | none => false)
  | none => false

/-- Alternative `secure\/RapidBoard.jspa` (anchored at end); the unescaped
dot matches any single non-line-terminator character. -/
def matchRapid (cs : List Char) : Bool :=
  match dropLit "secure/RapidBoard".data cs with
  | some r =>
    match r with
    | c :: rest => !isLineTerm c && rest = "jspa".data
    | [] => false
  | none => false

/-- The four alternatives of the suffix pattern. -/
def altLang (cs : List Char) : Bool :=
  matchBrowse cs || matchProjIssues cs || matchProjBoards cs || matchRapid cs

/-- After the leading slash: the optional group
`(jira\/software\/([^\/]\/)?)?` followed by one of the alternatives. -/
def afterSlash (cs : List Char) : Bool :=
  altLang cs ||
    (match dropLit "jira/software/".data cs with
     | some r =>
       altLang r ||
         (match r with
          | c :: d :: r2 => c ≠ '/' && d = '/' && altLang r2
          | _ => false)
     | none => false)

/-- Membership of the whole anchored suffix pattern: a leading slash, then
`afterSlash`. -/
def suffixLang : List Char → Bool
  | [] => false
  | c :: cs => if c = '/' then afterSlash cs else false

/-- The characters strictly before the leftmost position whose suffix
matches the pattern, or `none` when no position matches.  This is the part
of the string that survives `String.prototype.replace` with the anchored
global regex. -/
def prefixBeforeMatch : List Char → Option (List Char)
  | [] => none
  | c :: cs =>
    if suffixLang (c :: cs) then some []
    else
      match prefixBeforeMatch cs with
      | some p => some (c :: p)
      | none => none

/-- `getPathPrefix(url)` (jira.ts lines 43–45): replace the suffix-pattern
match in the pathname with the empty string. -/
def getPathPrefix (url : Url) : String :=
  match prefixBeforeMatch url.pathname.data with
  | some p => ⟨p⟩
  | none => url.pathname

/-! ### Route-template matching -/

/-- Split a character list on `'/'`, as JS `String.prototype.split("/")`. -/
def splitSlash : List Char → List (List Char)
  | [] => [[]]
  | c :: rest =>
    if c = '/' then [] :: splitSlash rest
    else
      match splitSlash rest with
      | s :: ss => (c :: s) :: ss
      | [] => [[c]]

/-- Modelled from the spec: segment matching of the route-template matcher
collaborator (`micro-match`, not part of this repository).  The spec
describes it as `match(template, path) -> captured-params-or-empty`; a
template segment starting with `:` captures the corresponding path segment,
any other segment must be equal literally, and the segment counts must
agree. -/
def segsMatch : List (List Char) → List (List Char) → Option (List (String × String))
  | [], [] => some []
  | p :: ps, s :: ss =>
    match p with
    | ':' :: name => (segsMatch ps ss).map (fun acc => ((⟨name⟩ : String), (⟨s⟩ : String)) :: acc)
    | _ => if p = s then segsMatch ps ss else none
  | _, _ => none

/-- Modelled from the spec: `match(pattern, path)` of the route-template
matcher collaborator, returning the captured parameters, or an empty record
when the path does not match. -/
def microMatch (pattern path : String) : List (String × String) :=
  (segsMatch (splitSlash pattern.data) (splitSlash path.data)).getD []

/-- Property access `match(pattern, path).id`: `none` embeds JS
`undefined`. -/
def matchId (pattern path : String) : Option String :=
  ((microMatch pattern path).find? (fun p => p.1 == "id")).map (fun p => p.2)

/-- Embedding of `Array.prototype.find(Boolean)` over an array of
`string | undefined` values: the first truthy element (`none` and the empty
string are falsy), or `none`. -/
def findTruthy : List (Option String) → Option String
  | [] => none
  | none :: rest => findTruthy rest
  | some s :: rest => if s = "" then findTruthy rest else some s

/-- The regex replace `path.replace(/^\/jira\/software/, "")` of jira.ts
line 54: remove a leading `/jira/software` if present. -/
def stripJiraSoftware (path : String) : String :=
  if jsStartsWith path "/jira/software" then jsSubstrFrom path 14 else path

/-- `getSelectedIssueId(url, prefix)` (jira.ts lines 47–59).  The
`selectedIssue` query parameter short-circuits whenever it is present
(`params.has`), even with an empty value; otherwise the configured path
prefix is stripped, a leading `/jira/software` segment is stripped, and the
two route templates are tried in order, the first truthy captured `id`
winning. -/
def getSelectedIssueId (url : Url) (pfx : String := "") : Option String :=
  let params := url.searchParams
  if hasParam params "selectedIssue" then getParam params "selectedIssue"
  else
    let path := stripJiraSoftware (jsSubstrFrom url.pathname pfx.length)
    findTruthy
      (["/projects/:project/issues/:id", "/browse/:id"].map
        (fun pattern => matchId pattern path))

/-! ### Ticket mapping -/

/-- The tracker's structured rich-text document (ADF).  Opaque to this core:
only its presence or absence is inspected; conversion is delegated to the
external collaborator. -/
structure StructuredDocument where
  raw : String
deriving DecidableEq

/-- The `issuetype` field of a raw ticket record. -/
structure IssueType where
  name : String
deriving DecidableEq

/-- The `fields` member of a raw ticket record. -/
structure JiraFields where
  issuetype : IssueType
  summary : String
  description : Option StructuredDocument
deriving DecidableEq

/-- `JiraTicketInfo` (jira.ts lines 23–30): the raw API ticket record. -/
structure JiraTicketInfo where
  key : String
  fields : JiraFields
deriving DecidableEq

/-- `TicketData`: the canonical ticket shape produced by the adapter. -/
structure TicketData where
  type : String
  id : String
  title : String
  description : Option String
  url : String
deriving DecidableEq

/-- `extractTicketInfo(info, host)` (jira.ts lines 61–78), parametrised by
the external document-conversion collaborator `convert` (the composition
`toMarkdown ∘ fromADF` with the GFM extension set). -/
def extractTicketInfo (convert : StructuredDocument → String)
    (info : JiraTicketInfo) (host : String) : TicketData :=
  let id := info.key
  let fields := info.fields
  let type := jsToLower fields.issuetype.name
  let title := fields.summary
  let url := "https://" ++ host ++ "/browse/" ++ id
  let description :=
    match fields.description with
    | some d => some (convert d)
    | none => none
  { type := type, id := id, title := title, description := description, url := url }

/-- JS truthiness of a `string | undefined | null` value: `undefined`,
`null` and the empty string are falsy. -/
def jsTruthy : Option String → Bool
  | none => false
  | some s => s ≠ ""

/-- `scan(url, document)` (jira.ts lines 80–94).  The network is made
explicit: the first component of the result is the list of GET request URLs
issued (in order), the oracle `api` supplies the JSON response for a request
URL, and `convert` is the document-conversion collaborator.  The request URL
is `https://${url.host}${prefix}/rest/api/3` (the base handed to the HTTP
client, from the source) joined with `issue/${id}`; the join with a single
slash is modelled from the spec, the HTTP client being an external
collaborator. -/
def scan (convert : StructuredDocument → String) (api : String → JiraTicketInfo)
    (url : Url) (document : Document) : List String × List TicketData :=
  if !isJiraPage url document then ([], [])
  else
    let pfx := getPathPrefix url
    match getSelectedIssueId url pfx with
    | none => ([], [])
    | some s =>
      if s = "" then ([], [])
      else
        let requestUrl := "https://" ++ url.host ++ pfx ++ "/rest/api/3/issue/" ++ s
        let response := api requestUrl
        ([requestUrl], [extractTicketInfo convert response url.host])

/-- Sample conversion collaborator used for concrete evaluations. -/
def sampleConvert : StructuredDocument → String :=
  fun d => d.raw

/-- Sample API response used for concrete evaluations. -/
def sampleTicket : JiraTicketInfo :=
  { key := "ACME-42"
    fields :=
      { issuetype := { name := "Bug" }
        summary := "Login fails"
        description := none } }

/-- Sample API oracle used for concrete evaluations. -/
def sampleApi : String → JiraTicketInfo :=
  fun _ => sampleTicket

/-! ### Shared helper lemmas -/

/-- The character list of an appended string is the appended character
lists. -/
lemma strData_append (a b : String) : (a ++ b).data = a.data ++ b.data := by
  cases a
  cases b
  rfl

/-- `URLSearchParams.get` succeeding implies `URLSearchParams.has`. -/
lemma hasParam_of_getParam (ps : List (String × String)) (k v : String)
    (h : getParam ps k = some v) : hasParam ps k = true := by
  unfold getParam at h
  unfold hasParam
  cases hf : ps.find? (fun p => p.1 == k) with
  | none => rw [hf] at h; simp at h
  | some q =>
    have h1 : q ∈ ps := List.mem_of_find?_eq_some hf
    have h2 := List.find?_some hf
    exact List.any_eq_true.mpr ⟨q, h1, h2⟩

/-- A present `selectedIssue` query parameter is returned verbatim by
`getSelectedIssueId`, whatever the URL's path or the configured prefix. -/
lemma getSelectedIssueId_of_param (url : Url) (pfx v : String)
    (h : getParam url.searchParams "selectedIssue" = some v) :
    getSelectedIssueId url pfx = some v := by
  have hh := hasParam_of_getParam url.searchParams "selectedIssue" v h
  simp [getSelectedIssueId, hh, h]

/-- Dropping the length of the left summand of an appended string yields the
right summand. -/
lemma jsSubstrFrom_append (a b : String) : jsSubstrFrom (a ++ b) a.length = b := by
  unfold jsSubstrFrom
  rw [strData_append]
  have hl : a.length = a.data.length := rfl
  rw [hl, List.drop_left]

/-- Splitting on a slash that follows a slash-free block. -/
lemma splitSlash_append_seg (s rest : List Char) (hs : s.all (fun c => c ≠ '/') = true) :
    splitSlash (s ++ '/' :: rest) = s :: splitSlash rest := by
  induction s with
  | nil => simp [splitSlash]
  | cons c cs ih =>
    simp only [List.all_cons, Bool.and_eq_true, decide_eq_true_eq] at hs
    have hrec := ih (by simpa using hs.2)
    simp [splitSlash, hs.1, hrec]

/-- A slash-free character list splits into a single segment. -/
lemma splitSlash_no_slash (s : List Char) (hs : s.all (fun c => c ≠ '/') = true) :
    splitSlash s = [s] := by
  induction s with
  | nil => rfl
  | cons c cs ih =>
    simp only [List.all_cons, Bool.and_eq_true, decide_eq_true_eq] at hs
    have hrec := ih (by simpa using hs.2)
    simp [splitSlash, hs.1, hrec]

/-- Splitting the path shape `/browse/<key>` for a slash-free key. -/
lemma splitSlash_browse (key : List Char) (hk : key.all (fun c => c ≠ '/') = true) :
    splitSlash ('/' :: ("browse".data ++ '/' :: key)) = [[], "browse".data, key] := by
  have h0 : splitSlash ('/' :: ("browse".data ++ '/' :: key)) =
      [] :: splitSlash ("browse".data ++ '/' :: key) := rfl
  rw [h0, splitSlash_append_seg _ _ (by decide), splitSlash_no_slash _ hk]

/-- Splitting the path shape `/projects/<p>/issues/<key>` for slash-free
`p` and `key`. -/
lemma splitSlash_projIssues (p key : List Char)
    (hp : p.all (fun c => c ≠ '/') = true) (hk : key.all (fun c => c ≠ '/') = true) :
    splitSlash ('/' :: ("projects".data ++ '/' :: (p ++ '/' :: ("issues".data ++ '/' :: key)))) =
      [[], "projects".data, p, "issues".data, key] := by
  have h0 : splitSlash ('/' :: ("projects".data ++ '/' :: (p ++ '/' :: ("issues".data ++ '/' :: key)))) =
      [] :: splitSlash ("projects".data ++ '/' :: (p ++ '/' :: ("issues".data ++ '/' :: key))) := rfl
  rw [h0, splitSlash_append_seg _ _ (by decide), splitSlash_append_seg _ _ hp,
    splitSlash_append_seg _ _ (by decide), splitSlash_no_slash _ hk]

/-- The character list of `/browse/<key>`. -/
lemma data_browse (key : String) :
    ("/browse/" ++ key).data = '/' :: ("browse".data ++ '/' :: key.data) := by
  rw [strData_append]
  rfl

/-- The character list of `/projects/<p>/issues/<key>`. -/
lemma data_projIssues (p key : String) :
    ("/projects/" ++ p ++ "/issues/" ++ key).data =
      '/' :: ("projects".data ++ '/' :: (p.data ++ '/' :: ("issues".data ++ '/' :: key.data))) := by
  simp only [strData_append, List.append_assoc]
  rfl

/-- The second route template captures a slash-free key from
`/browse/<key>`. -/
lemma matchId_browse (key : String) (hk : key.data.all (fun c => c ≠ '/') = true) :
    matchId "/browse/:id" ("/browse/" ++ key) = some key := by
  unfold matchId microMatch
  rw [data_browse, splitSlash_browse _ hk]
  rfl

/-- The first route template does not match a `/browse/<key>` path (three
segments against five). -/
lemma matchId_projIssues_on_browse (key : String)
    (hk : key.data.all (fun c => c ≠ '/') = true) :
    matchId "/projects/:project/issues/:id" ("/browse/" ++ key) = none := by
  unfold matchId microMatch
  rw [data_browse, splitSlash_browse _ hk]
  rfl

/-- The first route template captures the slash-free `:id` key from
`/projects/<p>/issues/<key>`. -/
lemma matchId_projIssues (p key : String)
    (hp : p.data.all (fun c => c ≠ '/') = true)
    (hk : key.data.all (fun c => c ≠ '/') = true) :
    matchId "/projects/:project/issues/:id" ("/projects/" ++ p ++ "/issues/" ++ key) =
      some key := by
  unfold matchId microMatch
  rw [data_projIssues, splitSlash_projIssues _ _ hp hk]
  rfl

/-- `stripJiraSoftware` leaves a `/projects/...` path unchanged. -/
lemma stripJiraSoftware_projects (p key : String) :
    stripJiraSoftware ("/projects/" ++ p ++ "/issues/" ++ key) =
      "/projects/" ++ p ++ "/issues/" ++ key := rfl

/-- `stripJiraSoftware` leaves a `/browse/...` path unchanged. -/
lemma stripJiraSoftware_browse (key : String) :
    stripJiraSoftware ("/browse/" ++ key) = "/browse/" ++ key := rfl

/-- A non-empty string has a non-empty character list. -/
lemma data_ne_nil_of_ne_empty {key : String} (h : key ≠ "") : key.data ≠ [] := by
  intro hd
  apply h
  cases key with
  | mk d =>
    have hd' : d = [] := hd
    rw [hd']

/-- A non-empty character list is not `isEmpty`. -/
lemma isEmpty_false_of_ne_nil {l : List Char} (h : l ≠ []) : l.isEmpty = false := by
  cases l with
  | nil => exact absurd rfl h
  | cons a t => rfl

/-- The anchored suffix pattern accepts `/browse/<key>` for a non-empty
slash-free key (via its `browse\/[^\/]+` alternative). -/
lemma suffixLang_browse (key : String) (hne : key.data ≠ [])
    (hk : key.data.all (fun c => c ≠ '/') = true) :
    suffixLang ("/browse/" ++ key).data = true := by
  have hred : suffixLang ("/browse/" ++ key).data =
      (((((!key.data.isEmpty && key.data.all (fun c => c ≠ '/')) || false) || false) || false)
        || false) := rfl
  rw [hred, hk, isEmpty_false_of_ne_nil hne]
  rfl

/-- `prefixBeforeMatch` finds the least position whose suffix belongs to the
pattern language: if position `n` matches and no earlier position does, the
surviving prefix is the first `n` characters. -/
lemma prefixBeforeMatch_eq (cs : List Char) (n : Nat) (hn : n < cs.length)
    (hmatch : suffixLang (cs.drop n) = true)
    (hbefore : ∀ i, i < n → suffixLang (cs.drop i) = false) :
    prefixBeforeMatch cs = some (cs.take n) := by
  induction cs generalizing n with
  | nil => exact absurd hn (by simp)
  | cons c cs ih =>
    cases n with
    | zero =>
      have h0 : suffixLang (c :: cs) = true := hmatch
      simp [prefixBeforeMatch, h0]
    | succ m =>
      have h0 : suffixLang (c :: cs) = false := hbefore 0 (Nat.succ_pos m)
      have hm : suffixLang (cs.drop m) = true := hmatch
      have hb : ∀ i, i < m → suffixLang (cs.drop i) = false := by
        intro i hi
        exact hbefore (i + 1) (by omega)
      have hn' : m < cs.length := by simpa using hn
      simp [prefixBeforeMatch, h0, ih m hn' hm hb]

/-- The suffix pattern does not match at any position strictly inside the
first `n` characters of `path`. -/
def noEarlyMatch (path : String) (n : Nat) : Prop :=
  ∀ i, i < n → suffixLang (path.data.drop i) = false

instance noEarlyMatch.instDecidable (path : String) (n : Nat) :
    Decidable (noEarlyMatch path n) := by
  unfold noEarlyMatch
  infer_instance

/-- On `pre ++ rest` where the suffix pattern accepts `rest` and matches
nowhere inside `pre`, the surviving prefix is exactly `pre`. -/
lemma prefixBeforeMatch_append (pre rest : String)
    (hrest : suffixLang rest.data = true)
    (hne : rest.data ≠ [])
    (hpre : ∀ i, i < pre.length → suffixLang ((pre ++ rest).data.drop i) = false) :
    prefixBeforeMatch (pre ++ rest).data = some pre.data := by
  have hdata := strData_append pre rest
  have hlen : pre.length = pre.data.length := rfl
  have hmatch : suffixLang ((pre ++ rest).data.drop pre.length) = true := by
    rw [hdata, hlen, List.drop_left]
    exact hrest
  have hlt : pre.length < (pre ++ rest).data.length := by
    rw [hdata, List.length_append]
    have hr : 0 < rest.data.length := List.length_pos.mpr hne
    omega
  have heq := prefixBeforeMatch_eq ((pre ++ rest).data) pre.length hlt hmatch hpre
  rw [heq, hdata, hlen, List.take_left]

/-! ### Claim theorems: query-parameter handling -/

/-- C1 counterexample: on a URL whose `selectedIssue` query parameter is
present with an empty value and whose path is `/browse/ACME-42`, the
extracted identifier is the empty string coming from the query parameter,
not the path-captured key `ACME-42`: the query branch does short-circuit. -/
theorem emptySelectedIssue_no_fallthrough_cex :
    getSelectedIssueId
        ⟨"https", "acme.atlassian.net", "/browse/ACME-42", [("selectedIssue", "")]⟩ "" =
      some "" ∧
      (some "" : Option String) ≠ some "ACME-42" := by
  decide

/-- C1 (amended): `params.has("selectedIssue")` is true even for an
empty-valued parameter, so `getSelectedIssueId` short-circuits on every
present `selectedIssue` parameter and returns the empty string rather than
falling through to path-template matching. -/
theorem emptySelectedIssue_shortCircuits (url : Url) (pfx : String)
    (h : getParam url.searchParams "selectedIssue" = some "") :
    getSelectedIssueId url pfx = some "" :=
  getSelectedIssueId_of_param url pfx "" h

/-- Witness for the amended C1 at a concrete URL whose path matches
`/browse/<KEY>`. -/
theorem emptySelectedIssue_shortCircuits_witness :
    getSelectedIssueId
        ⟨"https", "acme.atlassian.net", "/browse/ACME-1", [("selectedIssue", "")]⟩ "" =
      some "" :=
  emptySelectedIssue_shortCircuits _ "" (by decide)

/-- C5: whenever the `selectedIssue` query parameter is present (with value
`v`), the identifier extracted by `getSelectedIssueId` is exactly `v`,
regardless of the URL's path shape or prefix: the query parameter takes
precedence over any path-based match. -/
theorem selectedIssue_param_precedence (url : Url) (pfx v : String)
    (h : getParam url.searchParams "selectedIssue" = some v) :
    getSelectedIssueId url pfx = some v :=
  getSelectedIssueId_of_param url pfx v h

/-- Witness for C5 on the board-view URL of the spec's scenario 2. -/
theorem selectedIssue_param_precedence_witness :
    getSelectedIssueId
        ⟨"https", "acme.atlassian.net", "/secure/RapidBoard.jspa",
         [("rapidView", "1"), ("selectedIssue", "ACME-7")]⟩ "" =
      some "ACME-7" :=
  selectedIssue_param_precedence _ "" "ACME-7" (by decide)

/-- C10: on an applicable page whose `selectedIssue` query parameter is
present with an empty value, `scan` returns the empty list and performs no
network request, even when the path matches a ticket route (the empty
identifier fails the truthiness test). -/
theorem scan_emptySelectedIssue_noFetch (convert : StructuredDocument → String)
    (api : String → JiraTicketInfo) (url : Url) (document : Document)
    (happ : isJiraPage url document = true)
    (h : getParam url.searchParams "selectedIssue" = some "") :
    scan convert api url document = ([], []) := by
  have hid := getSelectedIssueId_of_param url (getPathPrefix url) "" h
  simp [scan, happ, hid]

/-- Witness for C10 at a concrete URL whose path matches `/browse/<KEY>`. -/
theorem scan_emptySelectedIssue_noFetch_witness :
    scan sampleConvert sampleApi
        ⟨"https", "acme.atlassian.net", "/browse/ACME-42", [("selectedIssue", "")]⟩ ⟨""⟩ =
      ([], []) :=
  scan_emptySelectedIssue_noFetch sampleConvert sampleApi _ _ (by decide) (by decide)

/-! ### Claim theorems: applicability and orchestration -/

/-- C8: the applicability test returns true exactly when the URL's host ends
with the SaaS domain suffix `.atlassian.net` or the document's body carries
the marker id `jira`; it is a pure boolean predicate of those two
observations. -/
theorem isJiraPage_iff_suffix_or_marker (url : Url) (document : Document) :
    isJiraPage url document =
      (jsEndsWith url.host ".atlassian.net" || document.bodyId == "jira") := by
  unfold isJiraPage
  cases h1 : jsEndsWith url.host ".atlassian.net" <;>
    cases h2 : document.bodyId == "jira" <;> simp

/-- C6: when the applicability test fails, or when no identifier is
extracted, `scan` returns the empty ticket list without issuing any network
request (the request log is empty). -/
theorem scan_notApplicable_empty (convert : StructuredDocument → String)
    (api : String → JiraTicketInfo) (url : Url) (document : Document)
    (h : isJiraPage url document = false ∨
      getSelectedIssueId url (getPathPrefix url) = none) :
    scan convert api url document = ([], []) := by
  cases h with
  | inl h => simp [scan, h]
  | inr h => cases happ : isJiraPage url document <;> simp [scan, happ, h]

/-- Witness for C6 on an unrelated domain without the marker id (the spec's
scenario 4). -/
theorem scan_notApplicable_empty_witness :
    scan sampleConvert sampleApi
        ⟨"https", "unrelated.example", "/browse/ACME-42", []⟩ ⟨"other"⟩ =
      ([], []) :=
  scan_notApplicable_empty sampleConvert sampleApi _ _ (Or.inl (by decide))

/-- C2 (amended): whenever `scan` reaches the fetch step (applicable page,
truthy identifier `s`), it issues exactly one GET request, targeting
`https://{host}{prefix}/rest/api/3/issue/{s}` — the scheme is always
`https`, regardless of the input URL's scheme. -/
theorem scan_request_target (convert : StructuredDocument → String)
    (api : String → JiraTicketInfo) (url : Url) (document : Document) (s : String)
    (happ : isJiraPage url document = true)
    (hid : getSelectedIssueId url (getPathPrefix url) = some s)
    (hs : s ≠ "") :
    (scan convert api url document).fst =
      ["https://" ++ url.host ++ getPathPrefix url ++ "/rest/api/3/issue/" ++ s] := by
  simp [scan, happ, hid, hs]

/-- Witness for the amended C2 on the spec's scenario 3 (self-hosted
instance mounted under `/jira`). -/
theorem scan_request_target_witness :
    (scan sampleConvert sampleApi
        ⟨"https", "tracker.internal.example", "/jira/browse/OPS-3", []⟩ ⟨"jira"⟩).fst =
      ["https://" ++ "tracker.internal.example" ++
        getPathPrefix ⟨"https", "tracker.internal.example", "/jira/browse/OPS-3", []⟩ ++
        "/rest/api/3/issue/" ++ "OPS-3"] :=
  scan_request_target sampleConvert sampleApi _ _ "OPS-3" (by decide) (by decide) (by decide)

/-- C2 counterexample: for a page URL with scheme `http` (self-hosted
instance recognised via the marker id), the single GET request targets the
`https` URL, not the URL built from the input scheme as the claim states. -/
theorem scan_request_scheme_cex :
    (scan sampleConvert sampleApi
        ⟨"http", "tracker.internal.example", "/jira/browse/OPS-3", []⟩ ⟨"jira"⟩).fst =
        ["https://tracker.internal.example/jira/rest/api/3/issue/OPS-3"] ∧
      (Url.mk "http" "tracker.internal.example" "/jira/browse/OPS-3" []).scheme ++
          "://tracker.internal.example/jira/rest/api/3/issue/OPS-3" ≠
        "https://tracker.internal.example/jira/rest/api/3/issue/OPS-3" := by
  decide

/-! ### Claim theorems: ticket mapping -/

/-- C4: the `url` field of the mapped ticket is always
`https://<host>/browse/<key>`, built from the originating host and the
record key only — no path prefix and no URL dialect enters the
construction. -/
theorem extractTicketInfo_url_canonical (convert : StructuredDocument → String)
    (info : JiraTicketInfo) (host : String) :
    (extractTicketInfo convert info host).url =
      "https://" ++ host ++ "/browse/" ++ info.key := rfl

/-- C7: the mapped description is the conversion applied under `Option.map`:
an absent structured document maps to `none` (JS `undefined`), which is
distinct from `some ""`, and a present document maps to the converted markup
string. -/
theorem extractTicketInfo_description_spec (convert : StructuredDocument → String)
    (info : JiraTicketInfo) (host : String) :
    (extractTicketInfo convert info host).description =
        Option.map convert info.fields.description ∧
      Option.map convert (none : Option StructuredDocument) ≠ some "" := by
  refine ⟨?_, by simp⟩
  cases h : info.fields.description <;> simp [extractTicketInfo, h]

/-! ### Claim theorems: path-based extraction -/

/-- C9: the route templates are tried in the listed order and the first
match wins: on a `/projects/<P>/issues/<KEY>` path (slash-free `P`,
non-empty slash-free `KEY`, no `selectedIssue` parameter) the first
template, `/projects/:project/issues/:id`, captures `KEY` as `:id`, and
`getSelectedIssueId` returns exactly that capture. -/
theorem projectsIssues_extraction (scheme host : String)
    (params : List (String × String)) (pre p key : String)
    (hparam : hasParam params "selectedIssue" = false)
    (hp : p.data.all (fun c => c ≠ '/') = true)
    (hkey : key ≠ "") (hks : key.data.all (fun c => c ≠ '/') = true) :
    matchId "/projects/:project/issues/:id" ("/projects/" ++ p ++ "/issues/" ++ key) =
        some key ∧
      getSelectedIssueId
          ⟨scheme, host, pre ++ ("/projects/" ++ p ++ "/issues/" ++ key), params⟩ pre =
        some key := by
  refine ⟨matchId_projIssues p key hp hks, ?_⟩
  have hmatch1 := matchId_projIssues p key hp hks
  simp [getSelectedIssueId, hparam, jsSubstrFrom_append, stripJiraSoftware_projects,
    hmatch1, findTruthy, hkey]

/-- Witness for C9 on `/projects/PROJ/issues/KEY-1` with an empty prefix. -/
theorem projectsIssues_extraction_witness :
    matchId "/projects/:project/issues/:id"
        ("/projects/" ++ "PROJ" ++ "/issues/" ++ "KEY-1") = some "KEY-1" ∧
      getSelectedIssueId
          ⟨"https", "acme.atlassian.net",
           "" ++ ("/projects/" ++ "PROJ" ++ "/issues/" ++ "KEY-1"), []⟩ "" =
        some "KEY-1" :=
  projectsIssues_extraction "https" "acme.atlassian.net" [] "" "PROJ" "KEY-1"
    (by decide) (by decide) (by decide) (by decide)

/-- C3 counterexample: for the pathname `/jira/software/browse/OPS-3` the
part before `/browse/OPS-3` is `/jira/software`, but the suffix pattern's
optional `jira/software/` group makes the match start at position 0, so
`getPathPrefix` returns the empty string instead. -/
theorem getPathPrefix_jiraSoftware_cex :
    getPathPrefix ⟨"https", "selfhosted.example", "/jira/software/browse/OPS-3", []⟩ = "" ∧
      ("" : String) ≠ "/jira/software" := by
  decide

/-- C3 (amended): for every URL whose path is `<pre>/browse/<KEY>` (KEY
non-empty and slash-free, no `selectedIssue` parameter), *provided* the
suffix pattern does not already match at a position strictly inside `pre`
(it does when `pre` ends in `/jira/software`, or in `/jira/software/<c>`
for a single character `c`, or contains a `/projects/<p>/boards/` segment),
`getPathPrefix` returns exactly `pre` and the extracted identifier is
`KEY`. -/
theorem browse_extraction (scheme host : String) (params : List (String × String))
    (pre key : String)
    (hparam : hasParam params "selectedIssue" = false)
    (hkey : key ≠ "") (hks : key.data.all (fun c => c ≠ '/') = true)
    (hpre : noEarlyMatch (pre ++ ("/browse/" ++ key)) pre.length) :
    getPathPrefix ⟨scheme, host, pre ++ ("/browse/" ++ key), params⟩ = pre ∧
      getSelectedIssueId ⟨scheme, host, pre ++ ("/browse/" ++ key), params⟩
          (getPathPrefix ⟨scheme, host, pre ++ ("/browse/" ++ key), params⟩) =
        some key := by
  have hne : key.data ≠ [] := data_ne_nil_of_ne_empty hkey
  have hpfx : getPathPrefix ⟨scheme, host, pre ++ ("/browse/" ++ key), params⟩ = pre := by
    unfold getPathPrefix
    rw [prefixBeforeMatch_append pre ("/browse/" ++ key)
      (suffixLang_browse key hne hks) (by rw [data_browse]; simp) hpre]
  refine ⟨hpfx, ?_⟩
  rw [hpfx]
  have hm1 := matchId_projIssues_on_browse key hks
  have hm2 := matchId_browse key hks
  simp [getSelectedIssueId, hparam, jsSubstrFrom_append, stripJiraSoftware_browse,
    hm1, hm2, findTruthy, hkey]

/-- Witness for the amended C3 on the spec's scenario 3 pathname
`/jira/browse/OPS-3`. -/
theorem browse_extraction_witness :
    getPathPrefix
        ⟨"https", "tracker.internal.example", "/jira" ++ ("/browse/" ++ "OPS-3"), []⟩ =
        "/jira" ∧
      getSelectedIssueId
          ⟨"https", "tracker.internal.example", "/jira" ++ ("/browse/" ++ "OPS-3"), []⟩
          (getPathPrefix
            ⟨"https", "tracker.internal.example", "/jira" ++ ("/browse/" ++ "OPS-3"), []⟩) =
        some "OPS-3" :=
  browse_extraction "https" "tracker.internal.example" [] "/jira" "OPS-3"
    (by decide) (by decide) (by decide) (by decide)

end Jira
